import Mathlib

/-!
Verification of the DOM-compatibility shim and notebook serializer of the
vscode-ojs repository (src/unnamed/part_000 `dom-polyfill` and
src/src/notebook-kit/controller/serializer.ts), shallowly embedded in Lean.

Markup nodes are modelled structurally: an element has a tag name, an ordered
attribute list and an ordered child list; a text node holds a string; a
comment node stands for every other node kind (nodeType neither 1 nor 3).
JavaScript `null`/`undefined` is modelled by `Option`, and the truthiness of
`x || d` on strings by `jsStrOr` (the empty string is falsy).  External
libraries (xmldom's attribute store and `toString`, css-select's `selectOne`
and `selectAll`) are modelled by explicit parameters or by their documented
contracts; the code of the repository itself is embedded definitionally.
-/

/-- A DOM node: element (nodeType 1), text (nodeType 3), or any other node
kind (modelled as `comment`, nodeType 8). -/
inductive DomNode where
  | elem (tagName : String) (attrs : List (String × String)) (children : List DomNode)
  | text (value : String)
  | comment (value : String)

mutual

/-- Decidable equality for nodes (structural equality stands for reference
identity in the shallow embedding: structurally distinct nodes model
distinct DOM nodes). -/
def DomNode.decEq : (a b : DomNode) → Decidable (a = b)
  | .elem t a cs, .elem u b ds =>
    if h₁ : t = u then
      if h₂ : a = b then
        match DomNode.decEqList cs ds with
        | .isTrue h₃ => .isTrue (by rw [h₁, h₂, h₃])
        | .isFalse h₃ =>
          .isFalse (fun contra => DomNode.noConfusion contra (fun _ _ hcs => h₃ hcs))
      else .isFalse (fun contra => DomNode.noConfusion contra (fun _ ha _ => h₂ ha))
    else .isFalse (fun contra => DomNode.noConfusion contra (fun ht _ _ => h₁ ht))
  | .elem _ _ _, .text _ => .isFalse (fun contra => DomNode.noConfusion contra)
  | .elem _ _ _, .comment _ => .isFalse (fun contra => DomNode.noConfusion contra)
  | .text _, .elem _ _ _ => .isFalse (fun contra => DomNode.noConfusion contra)
  | .text v, .text w =>
    if h : v = w then .isTrue (by rw [h])
    else .isFalse (fun contra => DomNode.noConfusion contra (fun hv => h hv))
  | .text _, .comment _ => .isFalse (fun contra => DomNode.noConfusion contra)
  | .comment _, .elem _ _ _ => .isFalse (fun contra => DomNode.noConfusion contra)
  | .comment _, .text _ => .isFalse (fun contra => DomNode.noConfusion contra)
  | .comment v, .comment w =>
    if h : v = w then .isTrue (by rw [h])
    else .isFalse (fun contra => DomNode.noConfusion contra (fun hv => h hv))

def DomNode.decEqList : (cs ds : List DomNode) → Decidable (cs = ds)
  | [], [] => .isTrue rfl
  | [], _ :: _ => .isFalse (fun contra => List.noConfusion contra)
  | _ :: _, [] => .isFalse (fun contra => List.noConfusion contra)
  | c :: cs, d :: ds =>
    match DomNode.decEq c d, DomNode.decEqList cs ds with
    | .isTrue h₁, .isTrue h₂ => .isTrue (by rw [h₁, h₂])
    | .isFalse h₁, _ =>
      .isFalse (fun contra => List.noConfusion contra (fun hc _ => h₁ hc))
    | _, .isFalse h₂ =>
      .isFalse (fun contra => List.noConfusion contra (fun _ hcs => h₂ hcs))

end

instance : DecidableEq DomNode := DomNode.decEq

/-- `nodeType` of a node: 1 for elements, 3 for text, 8 otherwise. -/
def DomNode.nodeType : DomNode → Nat
  | .elem _ _ _ => 1
  | .text _ => 3
  | .comment _ => 8

/-- `nodeValue` of a node: the data of a text or comment node, `null` for an
element. -/
def DomNode.nodeValue : DomNode → Option String
  | .elem _ _ _ => none
  | .text v => some v
  | .comment v => some v

/-- `childNodes` of a node: the children of an element, empty otherwise. -/
def DomNode.childNodes : DomNode → List DomNode
  | .elem _ _ cs => cs
  | .text _ => []
  | .comment _ => []

/-- The attribute store of xmldom elements: ordered name/value list with
first-occurrence lookup.  `getAttr` returns `none` for an absent attribute
(DOM `getAttribute` returns `null`). -/
def getAttr : List (String × String) → String → Option String
  | [], _ => none
  | (k, w) :: rest, name => if k = name then some w else getAttr rest name

/-- `setAttribute`: replace the first binding of the name, or append one. -/
def setAttr : List (String × String) → String → String → List (String × String)
  | [], name, value => [(name, value)]
  | (k, w) :: rest, name, value =>
    if k = name then (name, value) :: rest else (k, w) :: setAttr rest name value

/-- `removeAttribute`: drop every binding of the name. -/
def removeAttr (attrs : List (String × String)) (name : String) :
    List (String × String) :=
  attrs.filter (fun p => p.1 ≠ name)

/-- An element as handed out by the shim's `createElement`: tag name,
attributes, ordered children. -/
structure Element where
  tagName : String
  attrs : List (String × String)
  children : List DomNode
deriving DecidableEq

def Element.getAttribute (e : Element) (name : String) : Option String :=
  getAttr e.attrs name

def Element.setAttribute (e : Element) (name value : String) : Element :=
  { e with attrs := setAttr e.attrs name value }

def Element.removeAttribute (e : Element) (name : String) : Element :=
  { e with attrs := removeAttr e.attrs name }

def Element.hasAttribute (e : Element) (name : String) : Bool :=
  (getAttr e.attrs name).isSome

/-- JavaScript string truthiness of `x || d` where `x : string | null`:
`null` and the empty string both fall through to the default. -/
def jsStrOr (v : Option String) (d : String) : String :=
  match v with
  | none => d
  | some s => if s = "" then d else s

/-- JavaScript `x || undefined` where `x : string | null`: `null` and the
empty string both become `undefined`. -/
def jsStrOrUndef (v : Option String) : Option String :=
  match v with
  | none => none
  | some s => if s = "" then none else some s

/-- JavaScript `toLowerCase()` on an (ASCII) tag name, modelled charwise. -/
def jsToLowerCase (s : String) : String :=
  ⟨s.data.map Char.toLower⟩

/-! ### Property-attribute synchronization (`enhanceElement`, part_000
lines 20-47) -/

/-- `enhanceElement`'s list of synced properties: `id` for every element and
additionally `type` when the tag name is (case-insensitively) `script`. -/
def syncProperties (tagName : String) : List String :=
  ["id"] ++ (if jsToLowerCase tagName = "script" then ["type"] else [])

/-- The synced-property getter installed by `enhanceElement`:
`this.getAttribute(prop) || ""`. -/
def syncGet (e : Element) (prop : String) : String :=
  jsStrOr (e.getAttribute prop) ""

/-- The synced-property setter installed by `enhanceElement`: a non-null
value `v` (modelled by `some s` where `s` is `String(v)`) is stored with
`setAttribute`; `null`/`undefined` removes the attribute. -/
def syncSet (e : Element) (prop : String) (value : Option String) : Element :=
  match value with
  | some s => e.setAttribute prop s
  | none => e.removeAttribute prop

/-! ### textContent (`enhanceElement`, part_000 lines 50-76)

The getter concatenates, in child order, the `nodeValue` of text children and
the recursive `textContent` of element children (other node kinds contribute
nothing).  The setter removes every child and then, when the assigned value is
non-null, appends one text node created from `String(value)` (the enhanced
`createTextNode` normalizes `data || ""`, the identity on an actual string). -/

mutual

def textContentOf : DomNode → String
  | .text v => v
  | .comment _ => ""
  | .elem _ _ cs => textContentList cs

def textContentList : List DomNode → String
  | [] => ""
  | c :: cs => textContentOf c ++ textContentList cs

end

/-- The `textContent` getter installed on enhanced elements. -/
def Element.textContentGet (e : Element) : String :=
  textContentList e.children

/-- The `textContent` setter installed on enhanced elements: clear all
children, then append a single text node unless the value is null. -/
def Element.setTextContent (e : Element) (value : Option String) : Element :=
  { e with children :=
      match value with
      | some s => [DomNode.text s]
      | none => [] }

/-! ### innerHTML (`enhanceElement`, part_000 lines 79-98)

Element children contribute their own serialization (xmldom's `toString`,
modelled by the parameter `ts`); text children contribute their value with
`&`, `<`, `>` globally replaced, the ampersand pass first; other node kinds
contribute nothing. -/

/-- Global single-character replacement, modelling `.replace(/c/g, rep)`. -/
def replaceChar (c : Char) (rep : List Char) : List Char → List Char
  | [] => []
  | x :: xs => (if x = c then rep else [x]) ++ replaceChar c rep xs

/-- The text-escaping chain of the `innerHTML` getter:
`.replace(/&/g, "&amp;").replace(/</g, "&lt;").replace(/>/g, "&gt;")`. -/
def escapeHtmlText (s : List Char) : List Char :=
  replaceChar '>' "&gt;".data
    (replaceChar '<' "&lt;".data
      (replaceChar '&' "&amp;".data s))

/-- Charwise description of the escaping: `&`, `<`, `>` map to their
entities, every other character (quotes included) to itself. -/
def escChar (c : Char) : List Char :=
  if c = '&' then "&amp;".data
  else if c = '<' then "&lt;".data
  else if c = '>' then "&gt;".data
  else [c]

/-- Contribution of one child to `innerHTML`. -/
def childSerialization (ts : DomNode → List Char) : DomNode → List Char
  | .elem t a cs => ts (.elem t a cs)
  | .text v => escapeHtmlText v.data
  | .comment _ => []

/-- The `innerHTML` getter installed on enhanced elements (the `html +=`
loop over `childNodes`). -/
def Element.innerHTML (e : Element) (ts : DomNode → List Char) : List Char :=
  e.children.foldl (fun html c => html ++ childSerialization ts c) []

/-! ### Selector query entry points

`selectOne`/`selectAll` of css-select are external; an engine is modelled as
a function from the selector string to either a result (the matched elements
in document order) or a thrown error.  The query root (`this` for the global
document, `doc.documentElement || doc` for parsed documents) is part of the
engine parameter. -/

/-- The result shape of a `querySelectorAll` entry point: the element
sequence, the `item` method when the returned object has one (`none` models
a plain array with no `item` property), and the `(value, index)` pairs that
`forEach` visits. -/
structure NodeListShim where
  elems : List DomNode
  itemFn : Option (Nat → Option DomNode)
  forEachVisits : List (DomNode × Nat)

/-- `document.querySelector` (part_000 lines 132-140): `selectOne` result
`|| null`, errors caught and logged, degrading to `null`. -/
def documentQuerySelector (engine : String → Except String (Option DomNode))
    (selector : String) : Option DomNode :=
  match engine selector with
  | .ok result => result
  | .error _ => none

/-- `document.querySelectorAll` (part_000 lines 142-165): the array of
results is augmented with `item` and `forEach`; on error an empty array with
stub `item`/`forEach` is returned. -/
def documentQuerySelectorAll (engine : String → Except String (List DomNode))
    (selector : String) : NodeListShim :=
  match engine selector with
  | .ok results =>
    { elems := results
      itemFn := some (fun i => results[i]?)
      forEachVisits := results.enum.map (fun p => (p.2, p.1)) }
  | .error _ =>
    { elems := []
      itemFn := some (fun _ => none)
      forEachVisits := [] }

/-- `querySelector` installed on documents parsed by the polyfill's
`DOMParser` (part_000 lines 258-269): identical logic to the document-level
entry point. -/
def parsedDocQuerySelector (engine : String → Except String (Option DomNode))
    (selector : String) : Option DomNode :=
  match engine selector with
  | .ok result => result
  | .error _ => none

/-- `querySelectorAll` installed on documents parsed by the polyfill's
`DOMParser` (part_000 lines 272-298): identical logic to the document-level
entry point. -/
def parsedDocQuerySelectorAll (engine : String → Except String (List DomNode))
    (selector : String) : NodeListShim :=
  match engine selector with
  | .ok results =>
    { elems := results
      itemFn := some (fun i => results[i]?)
      forEachVisits := results.enum.map (fun p => (p.2, p.1)) }
  | .error _ =>
    { elems := []
      itemFn := some (fun _ => none)
      forEachVisits := [] }

/-- `querySelector` installed by `DOMParserEx.parseFromString`
(serializer.ts lines 61-72): same catch-to-null logic. -/
def parserExQuerySelector (engine : String → Except String (Option DomNode))
    (selector : String) : Option DomNode :=
  match engine selector with
  | .ok result => result
  | .error _ => none

/-- `querySelectorAll` installed by `DOMParserEx.parseFromString`
(serializer.ts lines 74-86): returns the plain result array (which has
`forEach` from the array prototype but no `item` method); on error returns
a plain empty array. -/
def parserExQuerySelectorAll (engine : String → Except String (List DomNode))
    (selector : String) : NodeListShim :=
  match engine selector with
  | .ok results =>
    { elems := results
      itemFn := none
      forEachVisits := results.enum.map (fun p => (p.2, p.1)) }
  | .error _ =>
    { elems := []
      itemFn := none
      forEachVisits := [] }

/-! ### The two css-select adapters

part_000 lines 169-247 (`xmldomAdapter` of the polyfill) and serializer.ts
lines 9-52 (the serializer's own `xmldomAdapter`). -/

/-- Polyfill adapter `getAttributeValue`: `value === null ? undefined :
value` (the guard for a missing `getAttribute` method never fires on an
element). -/
def polyfillGetAttributeValue (e : Element) (name : String) : Option String :=
  match e.getAttribute name with
  | none => none
  | some v => some v

/-- Serializer adapter `getAttributeValue`: `elem.getAttribute(name) ||
undefined`. -/
def serializerGetAttributeValue (e : Element) (name : String) : Option String :=
  jsStrOrUndef (e.getAttribute name)

/-- The accumulation loop of the polyfill adapter's `getChildren`: push only
children with nodeType 1. -/
def elementChildrenLoop : List DomNode → List DomNode
  | [] => []
  | c :: cs =>
    if c.nodeType = 1 then c :: elementChildrenLoop cs else elementChildrenLoop cs

/-- Polyfill adapter `getChildren`. -/
def polyfillGetChildren (n : DomNode) : List DomNode :=
  elementChildrenLoop n.childNodes

/-- Serializer adapter `getChildren`: `Array.from(node.childNodes || [])`,
every child node regardless of kind. -/
def serializerGetChildren (n : DomNode) : List DomNode :=
  n.childNodes

mutual

/-- DOM `a.contains(b)`: `b` is `a` itself or a descendant of `a`.  The
shim's nodes delegate to the underlying DOM implementation's `contains`. -/
def domContains : DomNode → DomNode → Bool
  | .text v, b => decide (DomNode.text v = b)
  | .comment v, b => decide (DomNode.comment v = b)
  | .elem t a cs, b => decide (DomNode.elem t a cs = b) || domContainsList cs b

def domContainsList : List DomNode → DomNode → Bool
  | [], _ => false
  | c :: cs, b => domContains c b || domContainsList cs b

end

/-- Adapter `removeSubsets` (identical logic in both copies): keep the node
at index `i` unless some node at another index contains it. -/
def removeSubsets (nodes : List DomNode) : List DomNode :=
  ((nodes.enum.filter (fun p =>
      !(nodes.enum.any (fun q => decide (q.1 ≠ p.1) && domContains q.2 p.2)))).map
    Prod.snd)

/-- Restatement of the spec's `removeSubsets` contract: keep exactly the
nodes that are not a (proper) descendant of another node of the sequence,
in order. -/
def specRemoveSubsets (nodes : List DomNode) : List DomNode :=
  nodes.filter (fun n => !(nodes.any (fun m => decide (m ≠ n) && domContains m n)))

/-! ### Notebook serializer (serializer.ts lines 94-163) -/

/-- A cell of a parsed Observable Kit notebook.  `pinned` is
`boolean | null | undefined` in the source; `none` models null/undefined. -/
structure KitCell where
  id : Nat
  value : String
  mode : String
  pinned : Option Bool

/-- A parsed Observable Kit notebook (output of the external
`deserialize`). -/
structure KitNotebook where
  title : String
  theme : String
  readOnly : Bool
  cells : List KitCell

inductive CellKind where
  | markup
  | code
deriving DecidableEq

/-- The metadata attached to a produced cell: `{...cell}` with the pinned
normalization applied. -/
structure CellMetadata where
  id : Nat
  value : String
  mode : String
  pinned : Option Bool

structure NotebookCellData where
  kind : CellKind
  value : String
  languageId : String
  metadata : CellMetadata

structure NotebookData where
  cells : List NotebookCellData
  metadata : KitNotebook

/-- `OBSERVABLE_TO_VSCODE_MODE_MAP` (common/types.ts). -/
def observableToVscodeMode (mode : String) : Option String :=
  getAttr [("md", "markdown"), ("js", "javascript"), ("ojs", "ojs"),
    ("html", "html"), ("tex", "tex"), ("sql", "sql"), ("dot", "dot")] mode

/-- One iteration of the cell loop of `deserializeObservableKitNotebook`
(serializer.ts lines 137-157). -/
def deserializeCell (cell : KitCell) : NotebookCellData :=
  { kind := if cell.mode = "md" then CellKind.markup else CellKind.code
    value := cell.value
    languageId := jsStrOr (observableToVscodeMode cell.mode) "javascript"
    metadata :=
      { id := cell.id
        value := cell.value
        mode := cell.mode
        pinned :=
          match cell.pinned with
          | none => some false
          | some b => some b } }

/-- `deserializeObservableKitNotebook` (serializer.ts lines 131-163),
with the external Observable Kit `deserialize` already applied. -/
def deserializeObservableKitNotebook (notebook : KitNotebook) : NotebookData :=
  { cells := notebook.cells.map deserializeCell
    metadata := notebook }

/-- `isObservableKitFormat` (serializer.ts lines 127-129): both substring
checks, `String.includes` modelled as list-infix. -/
def isObservableKitFormat (content : List Char) : Bool :=
  decide ("<notebook".data <:+: content) && decide ("<!doctype html>".data <:+: content)

/-- `deserializeNotebook` (serializer.ts lines 108-116): decode the bytes,
and when the Observable Kit format test fails fall through the `if`,
resolving to `undefined` (`none`).  `decode` models `TextDecoder.decode`
and `parse` the external Observable Kit `deserialize`. -/
def deserializeNotebook (decode : List Nat → List Char)
    (parse : List Char → KitNotebook) (content : List Nat) :
    Option NotebookData :=
  if isObservableKitFormat (decode content) then
    some (deserializeObservableKitNotebook (parse (decode content)))
  else
    none

/-! ## Theorems -/

theorem getAttr_setAttr (attrs : List (String × String)) (name value : String) :
    getAttr (setAttr attrs name value) name = some value := by
  induction attrs with
  | nil => simp [setAttr, getAttr]
  | cons p rest ih =>
    obtain ⟨k, w⟩ := p
    by_cases h : k = name
    · simp [setAttr, getAttr, h]
    · simp [setAttr, getAttr, h, ih]

theorem getAttr_removeAttr (attrs : List (String × String)) (name : String) :
    getAttr (removeAttr attrs name) name = none := by
  induction attrs with
  | nil => simp [removeAttr, getAttr]
  | cons p rest ih =>
    obtain ⟨k, w⟩ := p
    by_cases h : k = name
    · simpa [removeAttr, h] using ih
    · simpa [removeAttr, getAttr, h] using ih

/-- C1: property-attribute synchronization for the synced properties
installed by `enhanceElement`: reading a synced property yields the
attribute's value (empty string when absent, never null); assigning a
non-null value stores it via `setAttribute` and reads back; assigning null
removes the backing attribute, after which `hasAttribute` is false and the
read yields the empty string. -/
theorem sync_property_attribute_roundtrip (e : Element) (p : String)
    (hp : p ∈ syncProperties e.tagName) :
    (∀ v, e.getAttribute p = some v → syncGet e p = v) ∧
    (e.getAttribute p = none → syncGet e p = "") ∧
    (∀ s, (syncSet e p (some s)).getAttribute p = some s ∧
      syncGet (syncSet e p (some s)) p = s) ∧
    ((syncSet e p none).hasAttribute p = false ∧
      syncGet (syncSet e p none) p = "") := by
  refine ⟨?_, ?_, ?_, ?_⟩
  · intro v hv
    by_cases h : v = ""
    · simp [syncGet, jsStrOr, hv, h]
    · simp [syncGet, jsStrOr, hv, h]
  · intro hv
    simp [syncGet, jsStrOr, hv]
  · intro s
    have hset : (syncSet e p (some s)).getAttribute p = some s := by
      simpa [syncSet, Element.setAttribute, Element.getAttribute] using
        getAttr_setAttr e.attrs p s
    refine ⟨hset, ?_⟩
    simp only [syncGet, hset, jsStrOr]
    by_cases h : s = "" <;> simp [h]
  · have hrem : (syncSet e p none).getAttribute p = none := by
      simpa [syncSet, Element.removeAttribute, Element.getAttribute] using
        getAttr_removeAttr e.attrs p
    have hrem' : getAttr (syncSet e p none).attrs p = none := by
      simpa [Element.getAttribute] using hrem
    constructor
    · simp [Element.hasAttribute, hrem']
    · simp [syncGet, jsStrOr, hrem]

theorem sync_property_attribute_roundtrip_witness :
    ("type" ∈ syncProperties "script") ∧
    ((syncSet ⟨"script", [("id", "x")], []⟩ "type" (some "observable")).getAttribute
        "type" = some "observable") ∧
    ((syncSet ⟨"script", [("id", "x")], []⟩ "type" none).hasAttribute "type"
        = false) := by
  have h := sync_property_attribute_roundtrip ⟨"script", [("id", "x")], []⟩
    "type" (by decide)
  exact ⟨by decide, (h.2.2.1 "observable").1, h.2.2.2.1⟩

/-- C5 counterexample: assigning the empty string to `textContent` does NOT
leave zero children — `"" != null` holds in JavaScript, so the setter
appends one (empty) text node. -/
theorem textContent_empty_assignment_counterexample :
    (Element.setTextContent ⟨"div", [], []⟩ (some "")).children.length ≠ 0 := by
  decide

/-- C5 (amended): assigning any non-null string `s` to `textContent` leaves
exactly one child, a text node holding `s` — including when `s` is empty —
and reading `textContent` afterwards returns `s`; assigning null removes all
children with no replacement. -/
theorem textContent_roundtrip (e : Element) (s : String) :
    (e.setTextContent (some s)).textContentGet = s ∧
    (e.setTextContent (some s)).children = [DomNode.text s] ∧
    (e.setTextContent none).children = [] := by
  refine ⟨?_, rfl, rfl⟩
  simp [Element.setTextContent, Element.textContentGet, textContentList,
    textContentOf]

theorem replaceChar_append (c : Char) (rep : List Char) (l₁ l₂ : List Char) :
    replaceChar c rep (l₁ ++ l₂) = replaceChar c rep l₁ ++ replaceChar c rep l₂ := by
  induction l₁ with
  | nil => simp [replaceChar]
  | cons x xs ih => simp [replaceChar, ih]

theorem escapeHtmlText_append (l₁ l₂ : List Char) :
    escapeHtmlText (l₁ ++ l₂) = escapeHtmlText l₁ ++ escapeHtmlText l₂ := by
  simp [escapeHtmlText, replaceChar_append]

theorem escapeHtmlText_singleton (x : Char) :
    escapeHtmlText [x] = escChar x := by
  by_cases h₁ : x = '&'
  · subst h₁; decide
  · by_cases h₂ : x = '<'
    · subst h₂; decide
    · by_cases h₃ : x = '>'
      · subst h₃; decide
      · simp [escapeHtmlText, replaceChar, escChar, h₁, h₂, h₃]

theorem escapeHtmlText_charwise (s : List Char) :
    escapeHtmlText s = (s.map escChar).join := by
  induction s with
  | nil => decide
  | cons x xs ih =>
    have hx : x :: xs = [x] ++ xs := rfl
    rw [hx, escapeHtmlText_append, escapeHtmlText_singleton, ih]
    simp

theorem foldl_append_eq_join {α : Type} (f : α → List Char) :
    ∀ (l : List α) (acc : List Char),
      l.foldl (fun html c => html ++ f c) acc = acc ++ (l.map f).join
  | [], acc => by simp
  | c :: cs, acc => by
    simp [List.foldl, foldl_append_eq_join f cs (acc ++ f c)]

/-- C6: `innerHTML` is the concatenation, in child order, of the per-child
contributions (an element child contributes its own serialization `ts`, a
text child its value escaped); the escaping rewrites exactly `&`, `<`, `>`
(ampersand first) and leaves every other character — quotes included —
unchanged, so the text value `a<b>&c` contributes `a&lt;b&gt;&amp;c`. -/
theorem innerHTML_serializes_children :
    (∀ (ts : DomNode → List Char) (e : Element),
      e.innerHTML ts = (e.children.map (childSerialization ts)).join) ∧
    (∀ s : List Char, escapeHtmlText s = (s.map escChar).join) ∧
    escapeHtmlText "a<b>&c".data = "a&lt;b&gt;&amp;c".data ∧
    escChar (Char.ofNat 34) = [Char.ofNat 34] ∧
    escChar (Char.ofNat 39) = [Char.ofNat 39] := by
  refine ⟨?_, escapeHtmlText_charwise, by decide, by decide, by decide⟩
  intro ts e
  simpa using foldl_append_eq_join (childSerialization ts) e.children []

/-- C2 counterexample: the `querySelectorAll` installed by
`DOMParserEx.parseFromString` returns a plain array — even on a selector
that makes the engine throw, the caught-error result is `[]` with no `item`
method, so the returned sequence does not expose `item(i)` as the claim
requires of every entry point. -/
theorem parserEx_querySelectorAll_no_item_counterexample :
    (parserExQuerySelectorAll (fun _ => Except.error "SyntaxError") "[foo").itemFn
      = none ∧
    (parserExQuerySelectorAll
      (fun _ => Except.ok [DomNode.elem "div" [] []]) "div").itemFn = none :=
  ⟨rfl, rfl⟩

/-- C2 (amended): on an engine error every `querySelectorAll` entry point
returns an empty sequence (never null, never a propagated exception) whose
`forEach` visits nothing; on success each returns exactly the engine's
matched elements in order, with `forEach` visiting them with their indices;
the document-level and polyfill-`DOMParser` entry points additionally expose
`item(i)` agreeing with indexed access, while the `DOMParserEx` entry point
returns a plain array without an `item` method. -/
theorem querySelectorAll_shapes
    (engine : String → Except String (List DomNode)) (selector : String) :
    (∀ err, engine selector = .error err →
      (documentQuerySelectorAll engine selector).elems = [] ∧
      (parsedDocQuerySelectorAll engine selector).elems = [] ∧
      (parserExQuerySelectorAll engine selector).elems = []) ∧
    (∀ results, engine selector = .ok results →
      (documentQuerySelectorAll engine selector).elems = results ∧
      (parsedDocQuerySelectorAll engine selector).elems = results ∧
      (parserExQuerySelectorAll engine selector).elems = results) ∧
    (∃ f, (documentQuerySelectorAll engine selector).itemFn = some f ∧
      ∀ i, f i = (documentQuerySelectorAll engine selector).elems[i]?) ∧
    (∃ f, (parsedDocQuerySelectorAll engine selector).itemFn = some f ∧
      ∀ i, f i = (parsedDocQuerySelectorAll engine selector).elems[i]?) ∧
    (parserExQuerySelectorAll engine selector).itemFn = none ∧
    ((documentQuerySelectorAll engine selector).forEachVisits
      = (documentQuerySelectorAll engine selector).elems.enum.map (fun p => (p.2, p.1))) ∧
    ((parsedDocQuerySelectorAll engine selector).forEachVisits
      = (parsedDocQuerySelectorAll engine selector).elems.enum.map (fun p => (p.2, p.1))) ∧
    ((parserExQuerySelectorAll engine selector).forEachVisits
      = (parserExQuerySelectorAll engine selector).elems.enum.map (fun p => (p.2, p.1))) := by
  cases hcase : engine selector with
  | ok results =>
    refine ⟨fun err herr => Except.noConfusion herr,
      fun rs hrs => ?_, ?_, ?_, ?_, ?_, ?_, ?_⟩
    · injection hrs with h
      subst h
      exact ⟨by simp [documentQuerySelectorAll, hcase],
        by simp [parsedDocQuerySelectorAll, hcase],
        by simp [parserExQuerySelectorAll, hcase]⟩
    · exact ⟨fun i => results[i]?, by simp [documentQuerySelectorAll, hcase],
        fun i => by simp [documentQuerySelectorAll, hcase]⟩
    · exact ⟨fun i => results[i]?, by simp [parsedDocQuerySelectorAll, hcase],
        fun i => by simp [parsedDocQuerySelectorAll, hcase]⟩
    · simp [parserExQuerySelectorAll, hcase]
    · simp [documentQuerySelectorAll, hcase]
    · simp [parsedDocQuerySelectorAll, hcase]
    · simp [parserExQuerySelectorAll, hcase]
  | error err =>
    refine ⟨fun e he => ?_,
      fun rs hrs => Except.noConfusion hrs,
      ?_, ?_, ?_, ?_, ?_, ?_⟩
    · exact ⟨by simp [documentQuerySelectorAll, hcase],
        by simp [parsedDocQuerySelectorAll, hcase],
        by simp [parserExQuerySelectorAll, hcase]⟩
    · exact ⟨fun _ => none, by simp [documentQuerySelectorAll, hcase],
        fun i => by simp [documentQuerySelectorAll, hcase]⟩
    · exact ⟨fun _ => none, by simp [parsedDocQuerySelectorAll, hcase],
        fun i => by simp [parsedDocQuerySelectorAll, hcase]⟩
    · simp [parserExQuerySelectorAll, hcase]
    · simp [documentQuerySelectorAll, hcase]
    · simp [parsedDocQuerySelectorAll, hcase]
    · simp [parserExQuerySelectorAll, hcase]

theorem querySelectorAll_shapes_witness :
    (documentQuerySelectorAll (fun _ => Except.error "SyntaxError") "[foo").elems
      = [] ∧
    (parserExQuerySelectorAll
      (fun _ => Except.ok [DomNode.elem "div" [] []]) "div").elems
      = [DomNode.elem "div" [] []] :=
  ⟨((querySelectorAll_shapes (fun _ => Except.error "SyntaxError") "[foo").1
      "SyntaxError" rfl).1,
   (((querySelectorAll_shapes
      (fun _ => Except.ok [DomNode.elem "div" [] []]) "div").2.1)
      [DomNode.elem "div" [] []] rfl).2.2⟩

/-- C3 counterexample: on an element whose `id` attribute is present with
the empty-string value, the serializer copy of the adapter
(`elem.getAttribute(name) || undefined`) returns `undefined` instead of the
empty string the claim requires of every entry point's adapter. -/
theorem serializer_getAttributeValue_empty_counterexample :
    Element.hasAttribute ⟨"div", [("id", "")], []⟩ "id" = true ∧
    Element.getAttribute ⟨"div", [("id", "")], []⟩ "id" = some "" ∧
    serializerGetAttributeValue ⟨"div", [("id", "")], []⟩ "id" = none := by
  exact ⟨rfl, rfl, rfl⟩

/-- C3 (amended): the polyfill adapter's `getAttributeValue` returns the
attribute's value whenever it is present — the empty string included — and
`undefined` exactly when it is absent; the serializer adapter agrees on
absent attributes and on present non-empty values, but collapses a present
empty-string value to `undefined`. -/
theorem getAttributeValue_adapters (e : Element) (name : String) :
    (∀ v, e.getAttribute name = some v → polyfillGetAttributeValue e name = some v) ∧
    (e.getAttribute name = none → polyfillGetAttributeValue e name = none) ∧
    (e.getAttribute name = none → serializerGetAttributeValue e name = none) ∧
    (∀ v, v ≠ "" → e.getAttribute name = some v →
      serializerGetAttributeValue e name = some v) ∧
    (e.getAttribute name = some "" → serializerGetAttributeValue e name = none) := by
  refine ⟨?_, ?_, ?_, ?_, ?_⟩
  · intro v hv
    simp [polyfillGetAttributeValue, hv]
  · intro hv
    simp [polyfillGetAttributeValue, hv]
  · intro hv
    simp [serializerGetAttributeValue, jsStrOrUndef, hv]
  · intro v hne hv
    simp [serializerGetAttributeValue, jsStrOrUndef, hv, hne]
  · intro hv
    simp [serializerGetAttributeValue, jsStrOrUndef, hv]

theorem getAttributeValue_adapters_witness :
    polyfillGetAttributeValue ⟨"div", [("id", "")], []⟩ "id" = some "" ∧
    serializerGetAttributeValue ⟨"div", [("id", "x")], []⟩ "id" = some "x" :=
  ⟨(getAttributeValue_adapters ⟨"div", [("id", "")], []⟩ "id").1 "" rfl,
   (getAttributeValue_adapters ⟨"div", [("id", "x")], []⟩ "id").2.2.2.1 "x"
     (by decide) rfl⟩

/-- C4 counterexample: the serializer copy of the adapter
(`Array.from(node.childNodes || [])`) returns every child node — here a
text child, whose nodeType is not 1 — where the claim requires element
children only from every entry point's adapter. -/
theorem serializer_getChildren_text_counterexample :
    serializerGetChildren (DomNode.elem "div" [] [DomNode.text "hi"])
      = [DomNode.text "hi"] ∧
    (DomNode.text "hi").nodeType ≠ 1 := by
  exact ⟨rfl, by decide⟩

/-- C4 (amended): the polyfill adapter's `getChildren` returns exactly the
element children (nodeType 1) of a node, in their original order (a sublist
of `childNodes`); the serializer adapter instead returns all child nodes of
every kind. -/
theorem getChildren_adapters (n : DomNode) :
    polyfillGetChildren n = n.childNodes.filter (fun c => decide (c.nodeType = 1)) ∧
    List.Sublist (polyfillGetChildren n) n.childNodes ∧
    (∀ c, c ∈ polyfillGetChildren n ↔ c ∈ n.childNodes ∧ c.nodeType = 1) ∧
    serializerGetChildren n = n.childNodes := by
  have hloop : ∀ cs : List DomNode,
      elementChildrenLoop cs = cs.filter (fun c => decide (c.nodeType = 1)) := by
    intro cs
    induction cs with
    | nil => rfl
    | cons c rest ih =>
      by_cases h : c.nodeType = 1 <;>
        simp [elementChildrenLoop, List.filter_cons, h, ih]
  have hfilter : polyfillGetChildren n
      = n.childNodes.filter (fun c => decide (c.nodeType = 1)) :=
    hloop n.childNodes
  refine ⟨hfilter, ?_, ?_, rfl⟩
  · rw [hfilter]
    exact List.filter_sublist n.childNodes
  · intro c
    rw [hfilter]
    simp [List.mem_filter]

/-- C7: every `querySelector` entry point (the global document's, the
polyfill `DOMParser`'s, and `DOMParserEx`'s) returns the engine's first
match when there is one, `null` when the engine reports no match, and —
when the selector engine throws — catches the error and degrades to `null`
instead of propagating. -/
theorem querySelector_first_or_null
    (engine : String → Except String (Option DomNode)) (selector : String) :
    (∀ e, engine selector = .ok (some e) →
      documentQuerySelector engine selector = some e ∧
      parsedDocQuerySelector engine selector = some e ∧
      parserExQuerySelector engine selector = some e) ∧
    (engine selector = .ok none →
      documentQuerySelector engine selector = none ∧
      parsedDocQuerySelector engine selector = none ∧
      parserExQuerySelector engine selector = none) ∧
    (∀ err, engine selector = .error err →
      documentQuerySelector engine selector = none ∧
      parsedDocQuerySelector engine selector = none ∧
      parserExQuerySelector engine selector = none) := by
  refine ⟨?_, ?_, ?_⟩
  · intro e he
    exact ⟨by simp [documentQuerySelector, he],
      by simp [parsedDocQuerySelector, he],
      by simp [parserExQuerySelector, he]⟩
  · intro hnone
    exact ⟨by simp [documentQuerySelector, hnone],
      by simp [parsedDocQuerySelector, hnone],
      by simp [parserExQuerySelector, hnone]⟩
  · intro err herr
    exact ⟨by simp [documentQuerySelector, herr],
      by simp [parsedDocQuerySelector, herr],
      by simp [parserExQuerySelector, herr]⟩

theorem querySelector_first_or_null_witness :
    documentQuerySelector (fun _ => Except.ok (some (DomNode.elem "p" [] []))) "p"
      = some (DomNode.elem "p" [] []) ∧
    parserExQuerySelector (fun _ => Except.error "SyntaxError") "[foo" = none :=
  ⟨((querySelector_first_or_null
      (fun _ => Except.ok (some (DomNode.elem "p" [] []))) "p").1
      (DomNode.elem "p" [] []) rfl).1,
   ((querySelector_first_or_null
      (fun _ => Except.error "SyntaxError") "[foo").2.2 "SyntaxError" rfl).2.2⟩

theorem enumFrom_filter_map_snd {α : Type} (P : Nat × α → Bool) (Q : α → Bool) :
    ∀ (xs : List α) (k : Nat), (∀ i x, xs[i]? = some x → P (k + i, x) = Q x) →
      ((List.enumFrom k xs).filter P).map Prod.snd = xs.filter Q
  | [], _, _ => rfl
  | x :: xs, k, h => by
    have h0 : P (k, x) = Q x := by
      simpa using h 0 x (by simp)
    have ih := enumFrom_filter_map_snd P Q xs (k + 1) (fun i y hy => by
      have e1 : k + 1 + i = k + (i + 1) := by omega
      rw [e1]
      exact h (i + 1) y (by simpa using hy))
    have hcons : List.enumFrom k (x :: xs) = (k, x) :: List.enumFrom (k + 1) xs := rfl
    by_cases hq : Q x = true
    · simp [hcons, List.filter_cons, h0, hq, ih]
    · have hq' : Q x = false := by
        cases hqv : Q x
        · rfl
        · exact absurd hqv hq
      simp [hcons, List.filter_cons, h0, hq', ih]

/-- C8: under the claim's implicit premise that the input sequence lists
distinct nodes (the shim feeds it selector result sets, and structural
equality models reference identity), `removeSubsets` returns exactly the
nodes that are not a descendant of some other node of the sequence, in
their original order — `specRemoveSubsets`, the spec's description as an
order-preserving filter.  In particular an ancestor/descendant pair keeps
only the ancestor. -/
theorem removeSubsets_keeps_non_descendants (nodes : List DomNode)
    (hnd : nodes.Nodup) :
    removeSubsets nodes = specRemoveSubsets nodes := by
  unfold removeSubsets specRemoveSubsets
  have henum : nodes.enum = List.enumFrom 0 nodes := rfl
  rw [henum]
  apply enumFrom_filter_map_snd
  intro i x hx
  have hagree :
      (nodes.enum.any (fun q => decide (q.1 ≠ 0 + i) && domContains q.2 x))
        = (nodes.any (fun m => decide (m ≠ x) && domContains m x)) := by
    rw [Bool.eq_iff_iff]
    simp only [List.any_eq_true, Bool.and_eq_true, decide_eq_true_eq,
      Nat.zero_add]
    constructor
    · rintro ⟨⟨j, m⟩, hmem, hji, hcont⟩
      rw [List.mem_enum_iff_getElem?] at hmem
      refine ⟨m, List.getElem?_mem hmem, fun hmx => ?_, hcont⟩
      subst hmx
      have hjlt : j < nodes.length := by
        rw [List.getElem?_eq_some] at hmem
        exact hmem.1
      exact hji (List.getElem?_inj hjlt hnd (hmem.trans hx.symm))
    · rintro ⟨m, hmem, hmx, hcont⟩
      obtain ⟨j, hj⟩ := List.mem_iff_getElem?.mp hmem
      refine ⟨(j, m), List.mem_enum_iff_getElem?.mpr hj, fun hji => ?_, hcont⟩
      subst hji
      exact hmx (Option.some_inj.mp (hj.symm.trans hx))
  show (!(List.enumFrom 0 nodes).any fun q => decide (q.1 ≠ 0 + i) && domContains q.2 x)
    = !(nodes.any fun m => decide (m ≠ x) && domContains m x)
  rw [← henum, hagree]

theorem removeSubsets_keeps_non_descendants_witness :
    ([DomNode.elem "div" [] [DomNode.elem "p" [] []],
      DomNode.elem "p" [] []] : List DomNode).Nodup ∧
    removeSubsets
      [DomNode.elem "div" [] [DomNode.elem "p" [] []], DomNode.elem "p" [] []]
      = [DomNode.elem "div" [] [DomNode.elem "p" [] []]] := by
  refine ⟨by decide, ?_⟩
  exact (removeSubsets_keeps_non_descendants _ (by decide)).trans (by decide)

/-- C9: when the decoded text does not contain both `"<notebook"` and
`"<!doctype html>"`, `deserializeNotebook` falls through the format check
and resolves to `undefined` (`none`) — it neither produces notebook data
nor raises an error (the embedding is total). -/
theorem deserializeNotebook_rejects_non_kit_format
    (decode : List Nat → List Char) (parse : List Char → KitNotebook)
    (content : List Nat)
    (h : ¬("<notebook".data <:+: decode content ∧
      "<!doctype html>".data <:+: decode content)) :
    deserializeNotebook decode parse content = none := by
  unfold deserializeNotebook
  have hfmt : isObservableKitFormat (decode content) = false := by
    unfold isObservableKitFormat
    by_cases h1 : "<notebook".data <:+: decode content
    · by_cases h2 : "<!doctype html>".data <:+: decode content
      · exact absurd ⟨h1, h2⟩ h
      · simp [h1, h2]
    · simp [h1]
  simp [hfmt]

theorem deserializeNotebook_rejects_non_kit_format_witness :
    deserializeNotebook (fun _ => "hello".data)
      (fun _ => ⟨"", "air", false, []⟩) [] = none :=
  deserializeNotebook_rejects_non_kit_format (fun _ => "hello".data)
    (fun _ => ⟨"", "air", false, []⟩) [] (by decide)

/-- C10: every cell produced by `deserializeObservableKitNotebook` carries
metadata whose `pinned` field is defined, and the cell built from a source
cell has `pinned = some (src.pinned.getD false)` — a null/undefined source
`pinned` is normalized to `false`, any other value is kept. -/
theorem deserialized_cells_pinned_defined (nb : KitNotebook) :
    (∀ cd, cd ∈ (deserializeObservableKitNotebook nb).cells →
      cd.metadata.pinned.isSome = true) ∧
    (∀ (i : Nat) (src : KitCell), nb.cells[i]? = some src →
      (deserializeObservableKitNotebook nb).cells[i]? = some (deserializeCell src) ∧
      (deserializeCell src).metadata.pinned = some (src.pinned.getD false)) := by
  constructor
  · intro cd hcd
    unfold deserializeObservableKitNotebook at hcd
    simp only [List.mem_map] at hcd
    obtain ⟨src, _, rfl⟩ := hcd
    cases hp : src.pinned <;> simp [deserializeCell, hp]
  · intro i src hsrc
    constructor
    · unfold deserializeObservableKitNotebook
      simp [List.getElem?_map, hsrc]
    · cases hp : src.pinned <;> simp [deserializeCell, hp]

theorem deserialized_cells_pinned_defined_witness :
    (deserializeCell ⟨1, "1 + 1", "js", none⟩).metadata.pinned = some false :=
  ((deserialized_cells_pinned_defined
      ⟨"t", "air", false, [⟨1, "1 + 1", "js", none⟩]⟩).2 0
    ⟨1, "1 + 1", "js", none⟩ rfl).2
